import Mathlib

/-!
Verification of the token-based access-control core of the `test-upload-aws-s3`
gateway (Go package `aws` plus its Fiber HTTP handlers).

The Go code is shallowly embedded:

* `GenerateToken` is the Go function of the same name: the hex encoding of
  HMAC-SHA256 over the file name, keyed by the shared secret.  SHA-256 and
  HMAC are implemented here from the FIPS 180-4 / RFC 2104 algorithms that
  Go's `crypto/sha256` and `crypto/hmac` implement; the implementation below
  was checked against the standard test vectors.  Go strings are byte slices;
  they are embedded as Lean `String`s together with an explicit UTF-8 byte
  encoding (`strBytes`), which agrees with Go's `[]byte(s)`.  Bytes and
  32-bit words are `Nat`s reduced modulo `2 ^ 32` where overflow matters.
  The Go `GenerateToken` returns an always-`nil` error alongside the token,
  so it is embedded as a total function.

* The in-memory registry `S3Client.tokenMap : map[string]FileInfo` is
  embedded as an association list in which each key occurs at most once;
  `mapInsert` is the Go map assignment (overwrite on an existing key) and
  `removeFirstByFileName` is the scan-and-delete loop of `DeleteFile`,
  which `break`s after removing the first entry whose `FileName` matches.
  Go map iteration order is unspecified; the list fixes one order, and the
  statements proved below do not depend on it.

* The MinIO collaborator is an oracle (`Backend`): each call is a pure
  function of the bucket and object name, and every operation additionally
  returns the list of backend calls it made (`BackendCall`), so that
  "no backend call is made" is a provable statement.  Nondeterministic
  inputs of an upload (the random file id from `generateFileID`, the UUID
  suffix, the outcome of `FileHeader.Open`) are passed in as a `FileSpec`.
  `time.Now()` is passed in as a `Nat` timestamp (`now`); the record expiry
  stored on upload is `now` plus seven days of seconds.

* HTTP status codes are the `net/http` numerals: 200, 401, 404, 500.
-/

namespace S3Spec

/-! ## SHA-256 (FIPS 180-4), as implemented by Go crypto/sha256 -/

/-- Addition modulo `2 ^ 32`. -/
def add32 (a b : Nat) : Nat := (a + b) % 4294967296

/-- Right rotation of a 32-bit word. -/
def rotr32 (n x : Nat) : Nat := ((x >>> n) ||| (x <<< (32 - n))) % 4294967296

/-- Logical right shift of a 32-bit word. -/
def shr32 (n x : Nat) : Nat := x >>> n

/-- Bitwise complement of a 32-bit word. -/
def not32 (x : Nat) : Nat := x ^^^ 4294967295

/-- SHA-256 Σ₀. -/
def bigSigma0 (x : Nat) : Nat := rotr32 2 x ^^^ rotr32 13 x ^^^ rotr32 22 x

/-- SHA-256 Σ₁. -/
def bigSigma1 (x : Nat) : Nat := rotr32 6 x ^^^ rotr32 11 x ^^^ rotr32 25 x

/-- SHA-256 σ₀. -/
def smallSigma0 (x : Nat) : Nat := rotr32 7 x ^^^ rotr32 18 x ^^^ shr32 3 x

/-- SHA-256 σ₁. -/
def smallSigma1 (x : Nat) : Nat := rotr32 17 x ^^^ rotr32 19 x ^^^ shr32 10 x

/-- SHA-256 choice function. -/
def chFn (x y z : Nat) : Nat := (x &&& y) ^^^ (not32 x &&& z)

/-- SHA-256 majority function. -/
def majFn (x y z : Nat) : Nat := (x &&& y) ^^^ (x &&& z) ^^^ (y &&& z)

/-- The 64 SHA-256 round constants (the table usually printed in
hexadecimal, 0x428a2f98 through 0xc67178f2, written here in decimal). -/
def sha256K : List Nat :=
  [1116352408, 1899447441, 3049323471, 3921009573, 961987163, 1508970993,
   2453635748, 2870763221, 3624381080, 310598401, 607225278, 1426881987,
   1925078388, 2162078206, 2614888103, 3248222580, 3835390401, 4022224774,
   264347078, 604807628, 770255983, 1249150122, 1555081692, 1996064986,
   2554220882, 2821834349, 2952996808, 3210313671, 3336571891, 3584528711,
   113926993, 338241895, 666307205, 773529912, 1294757372, 1396182291,
   1695183700, 1986661051, 2177026350, 2456956037, 2730485921, 2820302411,
   3259730800, 3345764771, 3516065817, 3600352804, 4094571909, 275423344,
   430227734, 506948616, 659060556, 883997877, 958139571, 1322822218,
   1537002063, 1747873779, 1955562222, 2024104815, 2227730452, 2361852424,
   2428436474, 2756734187, 3204031479, 3329325298]

/-- The SHA-256 initial hash value (0x6a09e667 through 0x5be0cd19, written
here in decimal). -/
def sha256H0 : List Nat :=
  [1779033703, 3144134277, 1013904242, 2773480762,
   1359893119, 2600822924, 528734635, 1541459225]

/-- Big-endian grouping of bytes into 32-bit words. -/
def toWords32 : List Nat → List Nat
  | b0 :: b1 :: b2 :: b3 :: rest =>
      (b0 * 16777216 + b1 * 65536 + b2 * 256 + b3) :: toWords32 rest
  | _ => []

/-- Message-schedule extension: extend the 16 block words to 64 words. -/
def extendW : Nat → List Nat → List Nat
  | 0, ws => ws
  | n + 1, ws =>
      let i := ws.length
      let w := add32 (add32 (smallSigma1 (ws.getD (i - 2) 0)) (ws.getD (i - 7) 0))
                     (add32 (smallSigma0 (ws.getD (i - 15) 0)) (ws.getD (i - 16) 0))
      extendW n (ws ++ [w])

/-- The eight 32-bit working variables of the SHA-256 compression loop. -/
structure Sha256State where
  a : Nat
  b : Nat
  c : Nat
  d : Nat
  e : Nat
  f : Nat
  g : Nat
  h : Nat

/-- The 64-round SHA-256 compression loop, one `(k, w)` pair per round. -/
def sha256Rounds : List (Nat × Nat) → Sha256State → Sha256State
  | [], st => st
  | (k, w) :: kws, st =>
      let t1 := add32 st.h (add32 (bigSigma1 st.e) (add32 (chFn st.e st.f st.g) (add32 k w)))
      let t2 := add32 (bigSigma0 st.a) (majFn st.a st.b st.c)
      sha256Rounds kws ⟨add32 t1 t2, st.a, st.b, st.c, add32 st.d t1, st.e, st.f, st.g⟩

/-- Compression of one 64-byte block into the running hash value. -/
def sha256Compress (hh : List Nat) (block : List Nat) : List Nat :=
  let w := extendW 48 (toWords32 block)
  let st := sha256Rounds (sha256K.zip w)
    ⟨hh.getD 0 0, hh.getD 1 0, hh.getD 2 0, hh.getD 3 0,
     hh.getD 4 0, hh.getD 5 0, hh.getD 6 0, hh.getD 7 0⟩
  [add32 (hh.getD 0 0) st.a, add32 (hh.getD 1 0) st.b, add32 (hh.getD 2 0) st.c,
   add32 (hh.getD 3 0) st.d, add32 (hh.getD 4 0) st.e, add32 (hh.getD 5 0) st.f,
   add32 (hh.getD 6 0) st.g, add32 (hh.getD 7 0) st.h]

/-- Big-endian 8-byte encoding of the 64-bit message bit length. -/
def beBytes8 (n : Nat) : List Nat :=
  [(n >>> 56) &&& 255, (n >>> 48) &&& 255, (n >>> 40) &&& 255, (n >>> 32) &&& 255,
   (n >>> 24) &&& 255, (n >>> 16) &&& 255, (n >>> 8) &&& 255, n &&& 255]

/-- SHA-256 padding: append `0x80`, zeros, and the 64-bit bit length. -/
def padMessage (ms : List Nat) : List Nat :=
  let l := ms.length
  let zeros := (64 - ((l + 9) % 64)) % 64
  ms ++ [128] ++ List.replicate zeros 0 ++ beBytes8 (l * 8)

/-- Fold the compression function over the padded message, one 64-byte block
per unit of fuel. -/
def sha256Blocks : Nat → List Nat → List Nat → List Nat
  | 0, hh, _ => hh
  | fuel + 1, hh, bytes => sha256Blocks fuel (sha256Compress hh (bytes.take 64)) (bytes.drop 64)

/-- Big-endian serialization of 32-bit words into bytes. -/
def wordsToBytes : List Nat → List Nat
  | [] => []
  | w :: ws =>
      ((w >>> 24) &&& 255) :: ((w >>> 16) &&& 255) :: ((w >>> 8) &&& 255) :: (w &&& 255)
        :: wordsToBytes ws

/-- The SHA-256 digest (32 bytes) of a byte string. -/
def sha256 (ms : List Nat) : List Nat :=
  let padded := padMessage ms
  wordsToBytes (sha256Blocks (padded.length / 64) sha256H0 padded)

/-- HMAC-SHA256 (RFC 2104), as implemented by Go crypto/hmac with a SHA-256
inner hash: block size 64, `ipad = 0x36`, `opad = 0x5c`. -/
def hmacSha256 (key msg : List Nat) : List Nat :=
  let k0 := if 64 < key.length then sha256 key else key
  let kp := k0 ++ List.replicate (64 - k0.length) 0
  sha256 ((kp.map (fun b => b ^^^ 92)) ++ sha256 ((kp.map (fun b => b ^^^ 54)) ++ msg))

/-- Lower-case hex digit of a value below 16, as produced by Go
encoding/hex. -/
def hexDigitChar (n : Nat) : Char := if n < 10 then Char.ofNat (48 + n) else Char.ofNat (87 + n)

/-- Two lower-case hex characters per byte, high nibble first. -/
def hexEncodeChars : List Nat → List Char
  | [] => []
  | b :: bs => hexDigitChar (b / 16) :: hexDigitChar (b % 16) :: hexEncodeChars bs

/-- Go `hex.EncodeToString`. -/
def hexEncode (bs : List Nat) : String := String.mk (hexEncodeChars bs)

/-- UTF-8 encoding of one code point. -/
def utf8EncodeChar (c : Nat) : List Nat :=
  if c < 128 then [c]
  else if c < 2048 then [192 ||| (c >>> 6), 128 ||| (c &&& 63)]
  else if c < 65536 then
    [224 ||| (c >>> 12), 128 ||| ((c >>> 6) &&& 63), 128 ||| (c &&& 63)]
  else
    [240 ||| (c >>> 18), 128 ||| ((c >>> 12) &&& 63), 128 ||| ((c >>> 6) &&& 63),
     128 ||| (c &&& 63)]

/-- The bytes of a Go string: the UTF-8 encoding of its characters, as
produced by the Go conversion from string to byte slice. -/
def strBytes (s : String) : List Nat := (s.data.map (fun c => utf8EncodeChar c.toNat)).flatten

/-- Go `aws.GenerateToken`: the hex encoding of the HMAC-SHA256 tag over the
file name, keyed by the secret token.  The Go function also returns an
error, but that error is the literal `nil` on every path, so the embedding
is a total function. -/
def GenerateToken (secretToken fileName : String) : String :=
  hexEncode (hmacSha256 (strBytes secretToken) (strBytes fileName))

/-- Decision of whether a character is a lower-case hexadecimal digit. -/
def isHexDigit (c : Char) : Bool :=
  (48 ≤ c.toNat && c.toNat ≤ 57) || (97 ≤ c.toNat && c.toNat ≤ 102)

/-! ## Data model: registry, backend oracle, client state -/

/-- Go `aws.FileInfo`: the record held in the registry for an uploaded
object.  `expiredAt` is the `time.Time` field as a timestamp. -/
structure FileInfo where
  fileName : String
  expiredAt : Nat
deriving DecidableEq

/-- The in-memory registry `S3Client.tokenMap : map[string]FileInfo`,
embedded as an association list from access token to record in which a key
occurs at most once. -/
abbrev TokenMap := List (String × FileInfo)

/-- Go map assignment `m[k] = v`: overwrite the binding of an existing key,
append a new binding otherwise. -/
def mapInsert (k : String) (v : FileInfo) : TokenMap → TokenMap
  | [] => [(k, v)]
  | (k1, v1) :: rest => if k1 = k then (k, v) :: rest else (k1, v1) :: mapInsert k v rest

/-- The registry cleanup loop of Go `DeleteFile`: scan the entries, delete
the first whose `FileName` equals the target, and `break`. -/
def removeFirstByFileName (fileName : String) : TokenMap → TokenMap
  | [] => []
  | (k1, v1) :: rest =>
      if v1.fileName = fileName then rest else (k1, v1) :: removeFirstByFileName fileName rest

/-- The error shapes `DeleteFile` distinguishes on a failed
`RemoveObject`: a `minio.ErrorResponse` carrying a code, or any other
error value. -/
inductive MinioErr where
  | errorResponse (code : String)
  | other (msg : String)
deriving DecidableEq

/-- One call made to the object-store collaborator, with the bucket and
object name it was made for. -/
inductive BackendCall where
  | put (bucket objectName : String)
  | presign (bucket objectName : String)
  | remove (bucket objectName : String)
deriving DecidableEq

/-- The object-store collaborator as an oracle: the outcome of each
MinIO call as a function of bucket and object name.  `putObject` and
`removeObject` return `none` on success and the error otherwise;
`presignedGetObject` returns the URL or an error. -/
structure Backend where
  putObject : String → String → Option String
  presignedGetObject : String → String → Except String String
  removeObject : String → String → Option MinioErr

/-- The mutable part of Go `aws.S3Client`: the bucket name and the
token registry. -/
structure S3ClientState where
  bucketName : String
  tokenMap : TokenMap
deriving DecidableEq

/-- Go `aws.ReqLinkResponse`: the per-file result of an upload. -/
structure ReqLinkResponse where
  status : Nat
  token : String
  fileName : String
  url : String
deriving DecidableEq

/-- Go `aws.GenerateURLResponse`: the result of a download request. -/
structure GenerateURLResponse where
  status : Nat
  url : String
deriving DecidableEq

deriving instance DecidableEq for Except

/-- The per-file nondeterministic inputs of an upload: the outcome of
`generateFileID` (16 random bytes, hex encoded, or a read error), the
UUID suffix from `uuid.New().String()`, and the outcome of
`FileHeader.Open` (`none` on success). -/
structure FileSpec where
  fidRes : Except String String
  uuid : String
  openRes : Option String
deriving DecidableEq

/-- The stored object name `fileID + "-" + uuid` built by the upload loop
(meaningful when `fidRes` succeeded). -/
def FileSpec.newFileName (f : FileSpec) : String :=
  match f.fidRes with
  | .ok fid => fid ++ "-" ++ f.uuid
  | .error _ => ""

/-! ## Operations of the Go `aws` package and its HTTP handlers -/

/-- Result of `GenerateDownloadURLWithFileNameAndToken`: the response, the
Go error, the backend calls made, and the client state after the call. -/
structure DownloadResult where
  resp : GenerateURLResponse
  err : Option String
  calls : List BackendCall
  state : S3ClientState
deriving DecidableEq

/-- Go `S3Client.GenerateDownloadURLWithFileNameAndToken`: read the secret
(500 when unset), re-derive the expected token, compare it with the
presented token (401 on mismatch), and only then ask the backend for a
fresh presigned URL. -/
def GenerateDownloadURLWithFileNameAndToken (secretToken : String) (be : Backend)
    (st : S3ClientState) (fileName token : String) : DownloadResult :=
  if secretToken = "" then ⟨⟨500, ""⟩, some "missing SECRET_TOKEN", [], st⟩
  else
    let expectedToken := GenerateToken secretToken fileName
    if token ≠ expectedToken then ⟨⟨401, ""⟩, some "invalid token", [], st⟩
    else
      match be.presignedGetObject st.bucketName fileName with
      | .error e => ⟨⟨500, ""⟩, some e, [.presign st.bucketName fileName], st⟩
      | .ok url => ⟨⟨200, url⟩, none, [.presign st.bucketName fileName], st⟩

/-- Result of a single-file upload: the response, the Go error, the backend
calls made, and the client state after the call. -/
structure UploadResult where
  resp : ReqLinkResponse
  err : Option String
  calls : List BackendCall
  state : S3ClientState
deriving DecidableEq

/-- Go `S3Client.UploadFileFromStream`: generate the object name, open the
stream, `PutObject`, then read the secret (500 when unset), derive the
token, request a presigned URL, record the token in the registry and
answer 200.  The order matters: the object is stored before the secret is
even read. -/
def UploadFileFromStream (secretToken : String) (be : Backend) (now : Nat)
    (st : S3ClientState) (f : FileSpec) : UploadResult :=
  match f.fidRes with
  | .error e => ⟨⟨500, "", "", ""⟩, some e, [], st⟩
  | .ok fid =>
    let newFileName := fid ++ "-" ++ f.uuid
    match f.openRes with
    | some e => ⟨⟨500, "", "", ""⟩, some e, [], st⟩
    | none =>
      match be.putObject st.bucketName newFileName with
      | some e => ⟨⟨500, "", "", ""⟩, some e, [.put st.bucketName newFileName], st⟩
      | none =>
        if secretToken = "" then
          ⟨⟨500, "", "", ""⟩, some "missing SECRET_TOKEN", [.put st.bucketName newFileName], st⟩
        else
          let token := GenerateToken secretToken newFileName
          match be.presignedGetObject st.bucketName newFileName with
          | .error e =>
              ⟨⟨500, "", "", ""⟩, some e,
               [.put st.bucketName newFileName, .presign st.bucketName newFileName], st⟩
          | .ok url =>
              ⟨⟨200, token, newFileName, url⟩, none,
               [.put st.bucketName newFileName, .presign st.bucketName newFileName],
               { st with tokenMap := mapInsert token ⟨newFileName, now + 604800⟩ st.tokenMap }⟩

/-- The per-file loop of Go `S3Client.UploadMultipleFilesFromStream`,
with the accumulated responses, registry and backend-call trace.  On the
first failure the loop returns the error alone: the responses accumulated
so far are discarded (the Go code returns `nil, err`), while the registry
keeps the inserts already performed. -/
def uploadLoop (secretToken bucket : String) (be : Backend) (now : Nat) :
    List FileSpec → List ReqLinkResponse → TokenMap → List BackendCall →
    Except String (List ReqLinkResponse) × TokenMap × List BackendCall
  | [], acc, m, calls => (.ok acc, m, calls)
  | f :: files, acc, m, calls =>
    match f.fidRes with
    | .error e => (.error e, m, calls)
    | .ok fid =>
      let newFileName := fid ++ "-" ++ f.uuid
      match f.openRes with
      | some e => (.error e, m, calls)
      | none =>
        match be.putObject bucket newFileName with
        | some e => (.error e, m, calls ++ [.put bucket newFileName])
        | none =>
          let token := GenerateToken secretToken newFileName
          match be.presignedGetObject bucket newFileName with
          | .error e =>
              (.error e, m, calls ++ [.put bucket newFileName, .presign bucket newFileName])
          | .ok url =>
              uploadLoop secretToken bucket be now files
                (acc ++ [⟨200, token, newFileName, url⟩])
                (mapInsert token ⟨newFileName, now + 604800⟩ m)
                (calls ++ [.put bucket newFileName, .presign bucket newFileName])

/-- Result of a batch upload: the response list or the first error, the
backend calls made, and the client state after the call. -/
structure BatchResult where
  res : Except String (List ReqLinkResponse)
  calls : List BackendCall
  state : S3ClientState

/-- Go `S3Client.UploadMultipleFilesFromStream`: read the secret once
(error when unset), then run the per-file loop. -/
def UploadMultipleFilesFromStream (secretToken : String) (be : Backend) (now : Nat)
    (st : S3ClientState) (files : List FileSpec) : BatchResult :=
  if secretToken = "" then ⟨.error "missing SECRET_TOKEN", [], st⟩
  else
    let out := uploadLoop secretToken st.bucketName be now files [] st.tokenMap []
    ⟨out.1, out.2.2, { st with tokenMap := out.2.1 }⟩

/-- Result of a delete: the HTTP status, the Go error, the backend calls
made, and the client state after the call. -/
structure DeleteResult where
  status : Nat
  err : Option String
  calls : List BackendCall
  state : S3ClientState
deriving DecidableEq

/-- Go `S3Client.DeleteFile`: call `RemoveObject`; on a
`minio.ErrorResponse` with code `NoSuchKey` answer 404, on any other
failure answer 500, and only on success remove the first matching
registry entry and answer 200. -/
def DeleteFile (be : Backend) (st : S3ClientState) (fileName : String) : DeleteResult :=
  match be.removeObject st.bucketName fileName with
  | some (.errorResponse code) =>
      if code = "NoSuchKey" then
        ⟨404, some "file not found", [.remove st.bucketName fileName], st⟩
      else
        ⟨500, some "failed to delete file from S3", [.remove st.bucketName fileName], st⟩
  | some (.other msg) =>
      ⟨500, some ("failed to delete file from S3: " ++ msg), [.remove st.bucketName fileName], st⟩
  | none =>
      ⟨200, none, [.remove st.bucketName fileName],
       { st with tokenMap := removeFirstByFileName fileName st.tokenMap }⟩

/-- The `DELETE /delete/:filename/:token` Fiber handler: read the secret
(500 when unset), re-derive the expected token, compare (401 on
mismatch), and only then call `DeleteFile`. -/
def deleteHandler (secretToken : String) (be : Backend) (st : S3ClientState)
    (fileName token : String) : DeleteResult :=
  if secretToken = "" then ⟨500, some "missing SECRET_TOKEN", [], st⟩
  else
    let expectedToken := GenerateToken secretToken fileName
    if token ≠ expectedToken then ⟨401, some "invalid token", [], st⟩
    else DeleteFile be st fileName

/-- The backend calls a fully successful run of the upload loop makes for
the given files: one `PutObject` and one `PresignedGetObject` each, in
order. -/
def batchCalls (bucket : String) : List FileSpec → List BackendCall
  | [] => []
  | f :: fs => .put bucket f.newFileName :: .presign bucket f.newFileName :: batchCalls bucket fs

/-- The registry inserts a fully successful run of the upload loop performs
for the given files. -/
def batchInserts (secretToken : String) (now : Nat) : List FileSpec → TokenMap → TokenMap
  | [], m => m
  | f :: fs, m =>
      batchInserts secretToken now fs
        (mapInsert (GenerateToken secretToken f.newFileName) ⟨f.newFileName, now + 604800⟩ m)

/-- All four fallible steps of one file of an upload batch succeed on the
given backend. -/
def FileOk (be : Backend) (bucket : String) (f : FileSpec) : Prop :=
  (∃ fid, f.fidRes = Except.ok fid) ∧ f.openRes = none
    ∧ be.putObject bucket f.newFileName = none
    ∧ ∃ url, be.presignedGetObject bucket f.newFileName = Except.ok url

/-! ## Operation sequences over the registry -/

/-- One request against the service, with the configuration and backend
outcomes in effect while it ran. -/
inductive Op where
  | uploadOne (secretToken : String) (be : Backend) (now : Nat) (f : FileSpec)
  | uploadMany (secretToken : String) (be : Backend) (now : Nat) (files : List FileSpec)
  | deleteReq (secretToken : String) (be : Backend) (fileName token : String)

/-- The client state left behind by one request. -/
def applyOp (st : S3ClientState) : Op → S3ClientState
  | .uploadOne secretToken be now f => (UploadFileFromStream secretToken be now st f).state
  | .uploadMany secretToken be now files =>
      (UploadMultipleFilesFromStream secretToken be now st files).state
  | .deleteReq secretToken be fileName token =>
      (deleteHandler secretToken be st fileName token).state

/-- The client state after a sequence of requests. -/
def runOps (st : S3ClientState) : List Op → S3ClientState
  | [] => st
  | op :: ops => runOps (applyOp st op) ops

/-- Reachability invariant of the registry: every entry is keyed by the
token derived, under some non-empty secret, from the stored object name it
records. -/
def TokenMapInv (m : TokenMap) : Prop :=
  ∀ e ∈ m, ∃ S, S ≠ "" ∧ e.1 = GenerateToken S e.2.fileName

/-! ## Unsynchronized access to the shared registry

The Go `tokenMap` is a plain `map[string]FileInfo` with no mutex and no
`sync.Map`; the handlers run on concurrent goroutines.  An unguarded map
update is modeled at the granularity of a read-modify-write: a thread
first snapshots the shared map, then writes back the snapshot with its own
binding added.  A mutex would make the two steps of each thread atomic. -/

/-- Shared registry plus the private snapshots of two threads that are
each inserting one binding. -/
structure RaceState where
  shared : TokenMap
  snap1 : Option TokenMap
  snap2 : Option TokenMap
deriving DecidableEq

/-- Scheduler actions: which thread performs its read or its write next. -/
inductive RaceAction where
  | read1
  | read2
  | write1
  | write2

/-- One scheduler step of the two inserting threads. -/
def raceStep (k1 : String) (v1 : FileInfo) (k2 : String) (v2 : FileInfo) :
    RaceState → RaceAction → RaceState
  | st, .read1 => { st with snap1 := some st.shared }
  | st, .read2 => { st with snap2 := some st.shared }
  | st, .write1 => { st with shared := mapInsert k1 v1 (st.snap1.getD st.shared) }
  | st, .write2 => { st with shared := mapInsert k2 v2 (st.snap2.getD st.shared) }

/-- Run a schedule of the two inserting threads. -/
def raceRun (k1 : String) (v1 : FileInfo) (k2 : String) (v2 : FileInfo)
    (sched : List RaceAction) (st : RaceState) : RaceState :=
  sched.foldl (raceStep k1 v1 k2 v2) st

/-! ## Concrete demonstration data -/

/-- A backend on which every call succeeds. -/
def demoBackend : Backend :=
  ⟨fun _ _ => none,
   fun bucket obj => .ok ("https://" ++ bucket ++ ".s3.example/" ++ obj),
   fun _ _ => none⟩

/-- A client state with an empty registry. -/
def demoState : S3ClientState := ⟨"monastic-be", []⟩

/-- A file whose id generation and open both succeed, with the given id
and uuid suffix. -/
def demoFile (fid uuid : String) : FileSpec := ⟨.ok fid, uuid, none⟩

/-- A backend on which storing the object named `f2-u2` fails and every
other call succeeds. -/
def midFailBackend : Backend :=
  ⟨fun _ obj => if obj = "f2-u2" then some "disk full" else none,
   fun bucket obj => .ok ("https://" ++ bucket ++ ".s3.example/" ++ obj),
   fun _ _ => none⟩

/-- A backend whose `RemoveObject` fails with the MinIO `NoSuchKey` error
response. -/
def noSuchKeyBackend : Backend :=
  ⟨fun _ _ => none,
   fun bucket obj => .ok ("https://" ++ bucket ++ ".s3.example/" ++ obj),
   fun _ _ => some (.errorResponse "NoSuchKey")⟩

/-- A backend whose `RemoveObject` fails with an error that is not a MinIO
error response. -/
def removeFailBackend : Backend :=
  ⟨fun _ _ => none,
   fun bucket obj => .ok ("https://" ++ bucket ++ ".s3.example/" ++ obj),
   fun _ _ => some (.other "connection reset")⟩

/-! ## Shape of the derived token: length and alphabet -/

theorem wordsToBytes_length (ws : List Nat) : (wordsToBytes ws).length = 4 * ws.length := by
  induction ws with
  | nil => rfl
  | cons w ws ih => simp [wordsToBytes, ih]; ring

theorem sha256Compress_length (hh block : List Nat) : (sha256Compress hh block).length = 8 := rfl

theorem sha256Blocks_length (fuel : Nat) :
    ∀ hh bytes, hh.length = 8 → (sha256Blocks fuel hh bytes).length = 8 := by
  induction fuel with
  | zero => intro hh bytes h; exact h
  | succ n ih => intro hh bytes h; exact ih _ _ (sha256Compress_length _ _)

theorem sha256_length (ms : List Nat) : (sha256 ms).length = 32 := by
  unfold sha256
  rw [wordsToBytes_length, sha256Blocks_length]
  rfl

theorem hmacSha256_length (key msg : List Nat) : (hmacSha256 key msg).length = 32 :=
  sha256_length _

theorem hexEncodeChars_length (bs : List Nat) : (hexEncodeChars bs).length = 2 * bs.length := by
  induction bs with
  | nil => rfl
  | cons b bs ih => simp [hexEncodeChars, ih]; ring

theorem GenerateToken_length (S N : String) : (GenerateToken S N).length = 64 := by
  show (hexEncodeChars (hmacSha256 (strBytes S) (strBytes N))).length = 64
  rw [hexEncodeChars_length, hmacSha256_length]

theorem ne_GenerateToken_of_short {T : String} (S N : String) (h : T.length ≠ 64) :
    T ≠ GenerateToken S N := by
  intro hEq
  exact h (by rw [hEq, GenerateToken_length])

theorem wordsToBytes_lt (ws : List Nat) : ∀ b ∈ wordsToBytes ws, b < 256 := by
  induction ws with
  | nil => intro b hb; cases hb
  | cons w ws ih =>
      intro b hb
      simp only [wordsToBytes, List.mem_cons] at hb
      rcases hb with h | h | h | h | h
      · exact h ▸ Nat.lt_succ_of_le Nat.and_le_right
      · exact h ▸ Nat.lt_succ_of_le Nat.and_le_right
      · exact h ▸ Nat.lt_succ_of_le Nat.and_le_right
      · exact h ▸ Nat.lt_succ_of_le Nat.and_le_right
      · exact ih b h

theorem sha256_lt (ms : List Nat) : ∀ b ∈ sha256 ms, b < 256 := by
  intro b hb
  exact wordsToBytes_lt _ b hb

theorem hexDigitChar_isHex : ∀ n < 16, isHexDigit (hexDigitChar n) = true := by decide

theorem hexEncodeChars_isHex (bs : List Nat) (hb : ∀ b ∈ bs, b < 256) :
    ∀ c ∈ hexEncodeChars bs, isHexDigit c = true := by
  induction bs with
  | nil => intro c hc; cases hc
  | cons b bs ih =>
      intro c hc
      have hblt : b < 256 := hb b (List.mem_cons_self b bs)
      simp only [hexEncodeChars, List.mem_cons] at hc
      rcases hc with h | h | h
      · exact h ▸ hexDigitChar_isHex _ (by omega)
      · exact h ▸ hexDigitChar_isHex _ (by omega)
      · exact ih (fun x hx => hb x (List.mem_cons_of_mem b hx)) c h

theorem GenerateToken_data_isHex (S N : String) :
    ∀ c ∈ (GenerateToken S N).data, isHexDigit c = true := by
  intro c hc
  exact hexEncodeChars_isHex _ (sha256_lt _) c hc

/-- C4: token derivation is a pure deterministic function: two calls of
`GenerateToken` on the same secret and object name return the identical
string (in the embedding it is a function of exactly these two inputs, with
no other state and no randomness), and that string is a fixed-length
(64-character) lower-case hexadecimal string. -/
theorem generateToken_deterministic_fixed_hex (S N : String) :
    GenerateToken S N = GenerateToken S N
    ∧ (GenerateToken S N).length = 64
    ∧ (GenerateToken S N).data.all isHexDigit = true := by
  refine ⟨rfl, GenerateToken_length S N, ?_⟩
  rw [List.all_eq_true]
  intro c hc
  exact GenerateToken_data_isHex S N c hc

/-! ## Download and delete verification -/

theorem download_right_token (S N : String) (be : Backend) (st : S3ClientState)
    (hS : S ≠ "") :
    GenerateDownloadURLWithFileNameAndToken S be st N (GenerateToken S N)
      = match be.presignedGetObject st.bucketName N with
        | .error e => ⟨⟨500, ""⟩, some e, [.presign st.bucketName N], st⟩
        | .ok url => ⟨⟨200, url⟩, none, [.presign st.bucketName N], st⟩ := by
  unfold GenerateDownloadURLWithFileNameAndToken
  rw [if_neg hS, if_neg (not_not_intro rfl)]

theorem download_wrong_token (S N T : String) (be : Backend) (st : S3ClientState)
    (hS : S ≠ "") (hT : T ≠ GenerateToken S N) :
    GenerateDownloadURLWithFileNameAndToken S be st N T
      = ⟨⟨401, ""⟩, some "invalid token", [], st⟩ := by
  unfold GenerateDownloadURLWithFileNameAndToken
  rw [if_neg hS, if_pos hT]

theorem deleteHandler_wrong_token (S N T : String) (be : Backend) (st : S3ClientState)
    (hS : S ≠ "") (hT : T ≠ GenerateToken S N) :
    deleteHandler S be st N T = ⟨401, some "invalid token", [], st⟩ := by
  unfold deleteHandler
  rw [if_neg hS, if_pos hT]

/-- C1: with a non-empty configured secret, presenting the token derived
from the secret and the object name passes the token check of the download
operation — the backend presign call is made, and when it succeeds the
response is 200 with the fresh URL — while presenting any other token
fails the check with the Unauthorized outcome. -/
theorem download_token_check_sound (S N T : String) (be : Backend) (st : S3ClientState)
    (hS : S ≠ "") :
    ((GenerateDownloadURLWithFileNameAndToken S be st N (GenerateToken S N)).calls
        = [.presign st.bucketName N]
      ∧ ∀ url, be.presignedGetObject st.bucketName N = .ok url →
          GenerateDownloadURLWithFileNameAndToken S be st N (GenerateToken S N)
            = ⟨⟨200, url⟩, none, [.presign st.bucketName N], st⟩)
    ∧ (T ≠ GenerateToken S N →
        GenerateDownloadURLWithFileNameAndToken S be st N T
          = ⟨⟨401, ""⟩, some "invalid token", [], st⟩) := by
  refine ⟨⟨?_, ?_⟩, fun hT => download_wrong_token S N T be st hS hT⟩
  · rw [download_right_token S N be st hS]
    cases be.presignedGetObject st.bucketName N <;> rfl
  · intro url hurl
    rw [download_right_token S N be st hS, hurl]

theorem download_token_check_sound_witness :
    ((GenerateDownloadURLWithFileNameAndToken "sekret" demoBackend demoState "obj"
        (GenerateToken "sekret" "obj")).calls = [.presign "monastic-be" "obj"]
      ∧ GenerateDownloadURLWithFileNameAndToken "sekret" demoBackend demoState "obj"
          (GenerateToken "sekret" "obj")
        = ⟨⟨200, "https://monastic-be.s3.example/obj"⟩, none,
           [.presign "monastic-be" "obj"], demoState⟩)
    ∧ GenerateDownloadURLWithFileNameAndToken "sekret" demoBackend demoState "obj" "bad"
        = ⟨⟨401, ""⟩, some "invalid token", [], demoState⟩ := by
  have h := download_token_check_sound "sekret" "obj" "bad" demoBackend demoState (by decide)
  exact ⟨⟨h.1.1, h.1.2 "https://monastic-be.s3.example/obj" rfl⟩,
         h.2 (ne_GenerateToken_of_short "sekret" "obj" (by decide))⟩

/-- C3: with a non-empty configured secret, presenting a token different
from the one derived for the object name makes both the download operation
and the delete handler answer 401 Unauthorized with no backend call and an
unchanged client state (in particular an unchanged registry). -/
theorem wrong_token_rejected_without_backend (S N T : String) (be : Backend)
    (st : S3ClientState) (hS : S ≠ "") (hT : T ≠ GenerateToken S N) :
    GenerateDownloadURLWithFileNameAndToken S be st N T
        = ⟨⟨401, ""⟩, some "invalid token", [], st⟩
    ∧ deleteHandler S be st N T = ⟨401, some "invalid token", [], st⟩ :=
  ⟨download_wrong_token S N T be st hS hT, deleteHandler_wrong_token S N T be st hS hT⟩

theorem wrong_token_rejected_without_backend_witness :
    GenerateDownloadURLWithFileNameAndToken "sekret" demoBackend demoState "obj" "tampered"
        = ⟨⟨401, ""⟩, some "invalid token", [], demoState⟩
    ∧ deleteHandler "sekret" demoBackend demoState "obj" "tampered"
        = ⟨401, some "invalid token", [], demoState⟩ :=
  wrong_token_rejected_without_backend "sekret" "obj" "tampered" demoBackend demoState
    (by decide) (ne_GenerateToken_of_short "sekret" "obj" (by decide))

/-- C8: download verification is independent of the registry: under any two
registry states the download operation produces the same response, error
and backend calls, and it leaves the state (hence the registry) of either
run unchanged. -/
theorem download_independent_of_registry (S N T bucket : String) (be : Backend)
    (m1 m2 : TokenMap) :
    (GenerateDownloadURLWithFileNameAndToken S be ⟨bucket, m1⟩ N T).resp
        = (GenerateDownloadURLWithFileNameAndToken S be ⟨bucket, m2⟩ N T).resp
    ∧ (GenerateDownloadURLWithFileNameAndToken S be ⟨bucket, m1⟩ N T).err
        = (GenerateDownloadURLWithFileNameAndToken S be ⟨bucket, m2⟩ N T).err
    ∧ (GenerateDownloadURLWithFileNameAndToken S be ⟨bucket, m1⟩ N T).calls
        = (GenerateDownloadURLWithFileNameAndToken S be ⟨bucket, m2⟩ N T).calls
    ∧ (GenerateDownloadURLWithFileNameAndToken S be ⟨bucket, m1⟩ N T).state = ⟨bucket, m1⟩
    ∧ (GenerateDownloadURLWithFileNameAndToken S be ⟨bucket, m2⟩ N T).state = ⟨bucket, m2⟩ := by
  by_cases hS : S = ""
  · simp [GenerateDownloadURLWithFileNameAndToken, hS]
  · by_cases hT : T = GenerateToken S N
    · cases hps : be.presignedGetObject bucket N <;>
        simp [GenerateDownloadURLWithFileNameAndToken, hS, hT, hps]
    · simp [GenerateDownloadURLWithFileNameAndToken, hS, hT]

/-- C6: `DeleteFile` maps backend outcomes to the error taxonomy exactly:
a `RemoveObject` failure that is a MinIO error response with code
`NoSuchKey` gives 404 with the state unchanged; any other failure gives
500 with the state unchanged; success gives 200 and removes the first
matching registry entry; and 200 is answered only when the removal
succeeded. -/
theorem deleteFile_status_taxonomy (be : Backend) (st : S3ClientState) (N : String) :
    (be.removeObject st.bucketName N = some (.errorResponse "NoSuchKey") →
        (DeleteFile be st N).status = 404 ∧ (DeleteFile be st N).state = st)
    ∧ (∀ err, be.removeObject st.bucketName N = some err →
        err ≠ .errorResponse "NoSuchKey" →
        (DeleteFile be st N).status = 500 ∧ (DeleteFile be st N).state = st)
    ∧ (be.removeObject st.bucketName N = none →
        (DeleteFile be st N).status = 200
          ∧ (DeleteFile be st N).state.tokenMap = removeFirstByFileName N st.tokenMap)
    ∧ ((DeleteFile be st N).status = 200 → be.removeObject st.bucketName N = none) := by
  refine ⟨fun h => ?_, fun err h hne => ?_, fun h => ?_, fun h => ?_⟩
  · simp [DeleteFile, h]
  · cases err with
    | errorResponse code =>
        have hcode : code ≠ "NoSuchKey" := fun hc => hne (by rw [hc])
        simp [DeleteFile, h, hcode]
    | other msg => simp [DeleteFile, h]
  · simp [DeleteFile, h]
  · by_contra hne
    rcases Option.ne_none_iff_exists.mp hne with ⟨err, herr⟩
    cases err with
    | errorResponse code =>
        by_cases hcode : code = "NoSuchKey" <;>
          simp [DeleteFile, ← herr, hcode] at h
    | other msg => simp [DeleteFile, ← herr] at h

theorem deleteFile_status_taxonomy_witness :
    ((DeleteFile noSuchKeyBackend demoState "obj").status = 404
        ∧ (DeleteFile noSuchKeyBackend demoState "obj").state = demoState)
    ∧ (DeleteFile removeFailBackend demoState "obj").status = 500
    ∧ (DeleteFile demoBackend demoState "obj").status = 200 := by
  refine ⟨(deleteFile_status_taxonomy noSuchKeyBackend demoState "obj").1 rfl, ?_, ?_⟩
  · exact ((deleteFile_status_taxonomy removeFailBackend demoState "obj").2.1
      (.other "connection reset") rfl (by decide)).1
  · exact ((deleteFile_status_taxonomy demoBackend demoState "obj").2.2.1 rfl).1

/-! ## Registry consistency under insert followed by delete-by-name -/

/-- C5 counterexample: the claim fails for a registry that already holds a
second entry with the same stored object name under another token.  With
the registry `[("t1", ⟨"a", 0⟩)]`, recording `("t2", ⟨"a", 5⟩)` and then
removing by object name `"a"` leaves an entry whose record still carries
the name `"a"`, because the delete loop removes only the first match and
`break`s. -/
theorem registry_remove_counterexample :
    (removeFirstByFileName "a"
        (mapInsert "t2" ⟨"a", 5⟩ [("t1", ⟨"a", 0⟩)])).any
      (fun e => e.2.fileName == "a") = true := by decide

theorem removeFirst_mapInsert_no_match (m : TokenMap) (tok : String) (v : FileInfo)
    (hnd : (m.map Prod.fst).Nodup)
    (hm : ∀ e ∈ m, e.2.fileName = v.fileName → e.1 = tok) :
    ∀ e ∈ removeFirstByFileName v.fileName (mapInsert tok v m),
      e.2.fileName ≠ v.fileName := by
  induction m with
  | nil =>
      intro e he
      simp [mapInsert, removeFirstByFileName] at he
  | cons p m ih =>
      obtain ⟨k1, v1⟩ := p
      intro e he
      by_cases hk : k1 = tok
      · subst hk
        simp only [mapInsert, if_pos rfl, removeFirstByFileName, if_pos rfl] at he
        intro hname
        have hkey : e.1 = k1 := hm e (List.mem_cons_of_mem _ he) hname
        have : e.1 ∈ m.map Prod.fst := List.mem_map_of_mem Prod.fst he
        rw [hkey] at this
        exact (List.nodup_cons.mp hnd).1 this
      · have hv1 : v1.fileName ≠ v.fileName := fun hname =>
          hk (hm (k1, v1) (List.mem_cons_self _ _) hname)
        simp only [mapInsert, if_neg hk, removeFirstByFileName, if_neg hv1,
          List.mem_cons] at he
        rcases he with h | h
        · rw [h]; exact hv1
        · exact ih (List.nodup_cons.mp hnd).2
            (fun e1 he1 hn1 => hm e1 (List.mem_cons_of_mem _ he1) hn1) e h

/-- C5 amended: after `recordUpload(tok, rec)` followed by
`removeByObjectName(rec.StoredObjectName)`, no entry with that stored
object name remains — provided the keys of the initial registry are
distinct (as they are in a Go map) and every entry of the initial registry
that already carries that object name sits at the key `tok` itself (so the
insert overwrites it).  The counterexample above shows the claim fails
without the latter proviso. -/
theorem registry_remove_amended (m : TokenMap) (tok : String) (v : FileInfo)
    (hnd : (m.map Prod.fst).Nodup)
    (hm : ∀ e ∈ m, e.2.fileName = v.fileName → e.1 = tok) :
    (removeFirstByFileName v.fileName (mapInsert tok v m)).all
      (fun e => e.2.fileName != v.fileName) = true := by
  rw [List.all_eq_true]
  intro e he
  simpa using removeFirst_mapInsert_no_match m tok v hnd hm e he

theorem registry_remove_amended_witness :
    (removeFirstByFileName "a"
        (mapInsert "t2" ⟨"a", 5⟩ [("t0", ⟨"b", 0⟩)])).all
      (fun e => e.2.fileName != "a") = true :=
  registry_remove_amended [("t0", ⟨"b", 0⟩)] "t2" ⟨"a", 5⟩ (by decide)
    (by decide)

/-! ## Upload stores the object before the configuration check -/

/-- C10: with an empty `SECRET_TOKEN`, a single-file upload whose id
generation, open and `PutObject` all succeed still performs the backend
`PutObject` call, and only then fails with the missing-secret internal
error: the 500 response carries no token, nothing is recorded, and the
state is unchanged, yet the object was stored. -/
theorem upload_put_before_secret_check (be : Backend) (now : Nat) (st : S3ClientState)
    (f : FileSpec) (fid : String) (hfid : f.fidRes = .ok fid) (hopen : f.openRes = none)
    (hput : be.putObject st.bucketName f.newFileName = none) :
    UploadFileFromStream "" be now st f
      = ⟨⟨500, "", "", ""⟩, some "missing SECRET_TOKEN",
         [.put st.bucketName f.newFileName], st⟩ := by
  have hput2 : be.putObject st.bucketName (fid ++ "-" ++ f.uuid) = none := by
    simpa [FileSpec.newFileName, hfid] using hput
  simp [UploadFileFromStream, hfid, hopen, hput2, FileSpec.newFileName]

theorem upload_put_before_secret_check_witness :
    UploadFileFromStream "" demoBackend 0 demoState (demoFile "f1" "u1")
      = ⟨⟨500, "", "", ""⟩, some "missing SECRET_TOKEN",
         [.put "monastic-be" "f1-u1"], demoState⟩ :=
  upload_put_before_secret_check demoBackend 0 demoState (demoFile "f1" "u1") "f1"
    rfl rfl rfl

/-! ## The unguarded registry races -/

/-- C9: the registry is NOT protected against concurrent access: the Go
`tokenMap` is a plain map with no mutex, so an insert is an unguarded
read-modify-write of the shared map.  Under the interleaving
read₁ read₂ write₁ write₂ of two uploads inserting the tokens `t1` and
`t2`, the completed insert of `t1` is lost from the registry, while the
mutually exclusive schedule read₁ write₁ read₂ write₂ keeps both — the
corruption a mutual-exclusion lock would rule out. -/
theorem tokenMap_unsynchronized_race :
    (raceRun "t1" ⟨"a1", 0⟩ "t2" ⟨"a2", 0⟩ [.read1, .read2, .write1, .write2]
        ⟨[], none, none⟩).shared.lookup "t1" = none
    ∧ (raceRun "t1" ⟨"a1", 0⟩ "t2" ⟨"a2", 0⟩ [.read1, .write1, .read2, .write2]
        ⟨[], none, none⟩).shared.lookup "t1" = some ⟨"a1", 0⟩
    ∧ (raceRun "t1" ⟨"a1", 0⟩ "t2" ⟨"a2", 0⟩ [.read1, .write1, .read2, .write2]
        ⟨[], none, none⟩).shared.lookup "t2" = some ⟨"a2", 0⟩ := by decide

/-! ## Registry reachability invariant -/

theorem mem_mapInsert (k : String) (v : FileInfo) (m : TokenMap) :
    ∀ e ∈ mapInsert k v m, e = (k, v) ∨ e ∈ m := by
  induction m with
  | nil =>
      intro e he
      simp [mapInsert] at he
      exact Or.inl he
  | cons p m ih =>
      obtain ⟨k1, v1⟩ := p
      intro e he
      by_cases hk : k1 = k
      · simp only [mapInsert, if_pos hk, List.mem_cons] at he
        rcases he with h | h
        · exact Or.inl h
        · exact Or.inr (List.mem_cons_of_mem _ h)
      · simp only [mapInsert, if_neg hk, List.mem_cons] at he
        rcases he with h | h
        · exact Or.inr (h ▸ List.mem_cons_self _ _)
        · rcases ih e h with h2 | h2
          · exact Or.inl h2
          · exact Or.inr (List.mem_cons_of_mem _ h2)

theorem mem_removeFirstByFileName (n : String) (m : TokenMap) :
    ∀ e ∈ removeFirstByFileName n m, e ∈ m := by
  induction m with
  | nil => intro e he; cases he
  | cons p m ih =>
      obtain ⟨k1, v1⟩ := p
      intro e he
      by_cases hn : v1.fileName = n
      · simp only [removeFirstByFileName, if_pos hn] at he
        exact List.mem_cons_of_mem _ he
      · simp only [removeFirstByFileName, if_neg hn, List.mem_cons] at he
        rcases he with h | h
        · exact h ▸ List.mem_cons_self _ _
        · exact List.mem_cons_of_mem _ (ih e h)

theorem tokenMapInv_mapInsert {m : TokenMap} {S : String} (hS : S ≠ "") (n : String)
    (x : Nat) (hm : TokenMapInv m) :
    TokenMapInv (mapInsert (GenerateToken S n) ⟨n, x⟩ m) := by
  intro e he
  rcases mem_mapInsert _ _ _ e he with h | h
  · subst h; exact ⟨S, hS, rfl⟩
  · exact hm e h

theorem tokenMapInv_removeFirst (n : String) {m : TokenMap} (hm : TokenMapInv m) :
    TokenMapInv (removeFirstByFileName n m) :=
  fun e he => hm e (mem_removeFirstByFileName n m e he)

theorem tokenMapInv_uploadLoop (S bucket : String) (be : Backend) (now : Nat)
    (hS : S ≠ "") :
    ∀ (files : List FileSpec) (acc : List ReqLinkResponse) (m : TokenMap)
      (calls : List BackendCall), TokenMapInv m →
      TokenMapInv (uploadLoop S bucket be now files acc m calls).2.1 := by
  intro files
  induction files with
  | nil => intro acc m calls hm; exact hm
  | cons f files ih =>
      intro acc m calls hm
      cases hfid : f.fidRes with
      | error e => simpa [uploadLoop, hfid] using hm
      | ok fid =>
          cases hopen : f.openRes with
          | some e => simpa [uploadLoop, hfid, hopen] using hm
          | none =>
              cases hput : be.putObject bucket (fid ++ "-" ++ f.uuid) with
              | some e => simpa [uploadLoop, hfid, hopen, hput] using hm
              | none =>
                  cases hps : be.presignedGetObject bucket (fid ++ "-" ++ f.uuid) with
                  | error e => simpa [uploadLoop, hfid, hopen, hput, hps] using hm
                  | ok url =>
                      simp only [uploadLoop, hfid, hopen, hput, hps]
                      exact ih _ _ _ (tokenMapInv_mapInsert hS _ _ hm)

theorem tokenMapInv_uploadFileFromStream (S : String) (be : Backend) (now : Nat)
    (st : S3ClientState) (f : FileSpec) (hm : TokenMapInv st.tokenMap) :
    TokenMapInv (UploadFileFromStream S be now st f).state.tokenMap := by
  cases hfid : f.fidRes with
  | error e => simpa [UploadFileFromStream, hfid] using hm
  | ok fid =>
      cases hopen : f.openRes with
      | some e => simpa [UploadFileFromStream, hfid, hopen] using hm
      | none =>
          cases hput : be.putObject st.bucketName (fid ++ "-" ++ f.uuid) with
          | some e => simpa [UploadFileFromStream, hfid, hopen, hput] using hm
          | none =>
              by_cases hS : S = ""
              · simpa [UploadFileFromStream, hfid, hopen, hput, hS] using hm
              · cases hps : be.presignedGetObject st.bucketName (fid ++ "-" ++ f.uuid) with
                | error e =>
                    simpa [UploadFileFromStream, hfid, hopen, hput, hS, hps] using hm
                | ok url =>
                    simp only [UploadFileFromStream, hfid, hopen, hput, if_neg hS, hps]
                    exact tokenMapInv_mapInsert hS _ _ hm

theorem tokenMapInv_uploadMany (S : String) (be : Backend) (now : Nat)
    (st : S3ClientState) (files : List FileSpec) (hm : TokenMapInv st.tokenMap) :
    TokenMapInv (UploadMultipleFilesFromStream S be now st files).state.tokenMap := by
  by_cases hS : S = ""
  · simpa [UploadMultipleFilesFromStream, hS] using hm
  · simp only [UploadMultipleFilesFromStream, if_neg hS]
    exact tokenMapInv_uploadLoop S st.bucketName be now hS files [] st.tokenMap [] hm

theorem tokenMapInv_deleteHandler (S : String) (be : Backend) (st : S3ClientState)
    (N T : String) (hm : TokenMapInv st.tokenMap) :
    TokenMapInv (deleteHandler S be st N T).state.tokenMap := by
  by_cases hS : S = ""
  · simpa [deleteHandler, hS] using hm
  · by_cases hT : T ≠ GenerateToken S N
    · simpa [deleteHandler, hS, hT] using hm
    · simp only [deleteHandler, if_neg hS, if_neg hT]
      cases hrm : be.removeObject st.bucketName N with
      | none =>
          simp only [DeleteFile, hrm]
          exact tokenMapInv_removeFirst N hm
      | some err =>
          cases err with
          | errorResponse code =>
              by_cases hcode : code = "NoSuchKey" <;>
                simpa [DeleteFile, hrm, hcode] using hm
          | other msg => simpa [DeleteFile, hrm] using hm

theorem tokenMapInv_applyOp (st : S3ClientState) (op : Op) (hm : TokenMapInv st.tokenMap) :
    TokenMapInv ((applyOp st op).tokenMap) := by
  cases op with
  | uploadOne S be now f => exact tokenMapInv_uploadFileFromStream S be now st f hm
  | uploadMany S be now files => exact tokenMapInv_uploadMany S be now st files hm
  | deleteReq S be N T => exact tokenMapInv_deleteHandler S be st N T hm

theorem tokenMapInv_runOps (ops : List Op) :
    ∀ st, TokenMapInv st.tokenMap → TokenMapInv ((runOps st ops).tokenMap) := by
  induction ops with
  | nil => intro st h; exact h
  | cons op ops ih => intro st h; exact ih _ (tokenMapInv_applyOp st op h)

/-- C7: registry reachability invariant: starting from the empty registry
of a fresh client, after every sequence of upload and delete requests,
every entry of the registry is keyed by the token derived — under the
(non-empty) secret configured when the entry was created — from the
stored object name its record carries. -/
theorem registry_reachability_inv (bucket : String) (ops : List Op) :
    TokenMapInv ((runOps ⟨bucket, []⟩ ops).tokenMap) :=
  tokenMapInv_runOps ops ⟨bucket, []⟩ (fun e he => absurd he (List.not_mem_nil e))

theorem registry_reachability_inv_witness :
    TokenMapInv ((runOps ⟨"monastic-be", []⟩
        [.uploadOne "sekret" demoBackend 0 (demoFile "f1" "u1")]).tokenMap) :=
  registry_reachability_inv "monastic-be"
    [.uploadOne "sekret" demoBackend 0 (demoFile "f1" "u1")]

/-! ## Batch upload aborts on the first storage failure -/

/-- C2 counterexample: a batch of 3 files whose 2nd fails backend storage
does NOT return the 1 successful per-file result of the 1st file: the Go
function returns `nil, err`, i.e. the error alone and no per-file results
at all. -/
theorem upload_batch_midfail_counterexample :
    (UploadMultipleFilesFromStream "sekret" midFailBackend 0 demoState
        [demoFile "f1" "u1", demoFile "f2" "u2", demoFile "f3" "u3"]).res
      = Except.error "disk full" := by rfl

theorem uploadLoop_fail_at (S bucket : String) (be : Backend) (now : Nat)
    (fk : FileSpec) (post : List FileSpec) (fid e : String)
    (hfid : fk.fidRes = .ok fid) (hopen : fk.openRes = none)
    (hput : be.putObject bucket fk.newFileName = some e) :
    ∀ (pre : List FileSpec) (acc : List ReqLinkResponse) (m : TokenMap)
      (calls : List BackendCall), (∀ f ∈ pre, FileOk be bucket f) →
      uploadLoop S bucket be now (pre ++ fk :: post) acc m calls
        = (.error e, batchInserts S now pre m,
           calls ++ batchCalls bucket pre ++ [.put bucket fk.newFileName]) := by
  have hput2 : be.putObject bucket (fid ++ "-" ++ fk.uuid) = some e := by
    simpa [FileSpec.newFileName, hfid] using hput
  intro pre
  induction pre with
  | nil =>
      intro acc m calls hpre
      simp [uploadLoop, hfid, hopen, hput2, batchInserts, batchCalls,
        FileSpec.newFileName]
  | cons g pre ih =>
      intro acc m calls hpre
      obtain ⟨⟨gfid, hgfid⟩, hgopen, hgput, gurl, hgpres⟩ :=
        hpre g (List.mem_cons_self g pre)
      have hgput2 : be.putObject bucket (gfid ++ "-" ++ g.uuid) = none := by
        simpa [FileSpec.newFileName, hgfid] using hgput
      have hgpres2 : be.presignedGetObject bucket (gfid ++ "-" ++ g.uuid) = .ok gurl := by
        simpa [FileSpec.newFileName, hgfid] using hgpres
      simp only [List.cons_append, uploadLoop, hgfid, hgopen, hgput2, hgpres2,
        List.append_eq]
      rw [ih _ _ _ (fun f hf => hpre f (List.mem_cons_of_mem g hf))]
      simp [batchInserts, batchCalls, FileSpec.newFileName, hgfid, List.append_assoc]

/-- C2 amended: when the k-th file's backend storage fails and all earlier
files succeed, `UploadMultipleFilesFromStream` returns the storage error
with NO per-file results (the Go responses slice is returned as `nil`,
discarding the k-1 successful uploads): the k-1 earlier files are stored
and recorded in the registry, the k-th `PutObject` is attempted, and the
files after the k-th are not attempted (no backend call concerns them). -/
theorem upload_batch_midfail_aborts (S : String) (be : Backend) (now : Nat)
    (st : S3ClientState) (pre post : List FileSpec) (fk : FileSpec) (fid e : String)
    (hS : S ≠ "") (hpre : ∀ f ∈ pre, FileOk be st.bucketName f)
    (hfid : fk.fidRes = .ok fid) (hopen : fk.openRes = none)
    (hput : be.putObject st.bucketName fk.newFileName = some e) :
    UploadMultipleFilesFromStream S be now st (pre ++ fk :: post)
      = ⟨.error e,
         batchCalls st.bucketName pre ++ [.put st.bucketName fk.newFileName],
         ⟨st.bucketName, batchInserts S now pre st.tokenMap⟩⟩ := by
  unfold UploadMultipleFilesFromStream
  rw [if_neg hS, uploadLoop_fail_at S st.bucketName be now fk post fid e hfid hopen
    hput pre [] st.tokenMap [] hpre]
  rfl

theorem upload_batch_midfail_aborts_witness :
    UploadMultipleFilesFromStream "sekret" midFailBackend 0 demoState
        [demoFile "f1" "u1", demoFile "f2" "u2", demoFile "f3" "u3"]
      = ⟨.error "disk full",
         batchCalls "monastic-be" [demoFile "f1" "u1"]
           ++ [.put "monastic-be" "f2-u2"],
         ⟨"monastic-be", batchInserts "sekret" 0 [demoFile "f1" "u1"] []⟩⟩ := by
  have hpre : ∀ f ∈ [demoFile "f1" "u1"], FileOk midFailBackend "monastic-be" f := by
    intro f hf
    simp only [List.mem_singleton] at hf
    subst hf
    exact ⟨⟨"f1", rfl⟩, rfl, rfl, "https://monastic-be.s3.example/f1-u1", rfl⟩
  exact upload_batch_midfail_aborts "sekret" midFailBackend 0 demoState
    [demoFile "f1" "u1"] [demoFile "f3" "u3"] (demoFile "f2" "u2") "f2" "disk full"
    (by decide) hpre rfl rfl rfl

end S3Spec
